import Mathlib

/-!
Verification of `robot_controller.py`, the single source file of the
Collision-Free-Robot repository.  The Python program is a reactive
navigation loop: it repeatedly captures a camera frame from a simulator,
classifies the frame for green obstacles (`analyze_image`), checks the
Euclidean distance to a fixed goal, and issues movement commands.

The embedding below translates the source faithfully:
* positions are pairs of rational coordinates (the simulator delivers
  JSON floats; the interesting arithmetic is exact);
* a decoded image is modelled at the point where the source inspects it,
  namely as the grid of HSV pixels produced by `cv2.cvtColor`; the
  external libraries (`base64.b64decode`, `cv2.imdecode` together with
  `cv2.cvtColor`) are abstracted as a `Codec` parameter with the failure
  modes the source can observe (an exception, or `None`);
* the control loop is a step function from a trace of capture outcomes
  to the list of emitted events (HTTP commands, sleeps, printed
  diagnostics) plus a termination flag;
* the websocket receive loop is a function over a list of
  (inter-arrival delay, message) pairs, with the per-`recv` timeout of
  `asyncio.wait_for(ws.recv(), timeout=5.0)`.
-/

namespace RobotController

/-- A planar position with `x` and `z` coordinates, as the simulator
reports with every captured frame. -/
structure Pos where
  x : ℚ
  z : ℚ
  deriving DecidableEq, Repr

/-- The constant `GOAL_POSITION = {"x": -35, "z": -35}` from the configuration block. -/
def GOAL_POSITION : Pos := ⟨-35, -35⟩

/-- The constant `GOAL_THRESHOLD = 5` from the configuration block. -/
def GOAL_THRESHOLD : ℚ := 5

/-! ## Frame classifier (`analyze_image`) -/

/-- One pixel after the `cv2.cvtColor(img, cv2.COLOR_BGR2HSV)` step:
hue, saturation and value channels (each a byte, 0 to 255). -/
structure HSVPixel where
  h : ℕ
  s : ℕ
  v : ℕ
  deriving DecidableEq, Repr

/-- A decoded image, seen as its pixel grid flattened to a list; its
length is `img.shape[0] * img.shape[1]`. -/
abbrev Image := List HSVPixel

/-- The bound `lower_green = np.array([35, 50, 50])`. -/
def lower_green : HSVPixel := ⟨35, 50, 50⟩

/-- The bound `upper_green = np.array([85, 255, 255])`. -/
def upper_green : HSVPixel := ⟨85, 255, 255⟩

/-- The mask test `cv2.inRange(hsv, lower_green, upper_green)` applied to one pixel:
`inRange` selects a pixel when every channel lies between the lower and
upper bound, both bounds included. -/
def inRange (p : HSVPixel) : Bool :=
  decide (lower_green.h ≤ p.h ∧ p.h ≤ upper_green.h) &&
  decide (lower_green.s ≤ p.s ∧ p.s ≤ upper_green.s) &&
  decide (lower_green.v ≤ p.v ∧ p.v ≤ upper_green.v)

/-- The count `green_pixel_count = np.sum(mask > 0)`: the number of pixels the
mask selects. -/
def green_pixel_count (img : Image) : ℕ := (img.filter inRange).length

/-- The product `total_pixels = img.shape[0] * img.shape[1]`. -/
def total_pixels (img : Image) : ℕ := img.length

/-- The ratio `green_percentage = (green_pixel_count / total_pixels) * 100`. -/
def green_percentage (img : Image) : ℚ :=
  ((green_pixel_count img : ℚ) / (total_pixels img : ℚ)) * 100

/-- The fraction of green pixels over the total pixel count (the
quantity whose percentage the source computes). -/
def green_fraction (img : Image) : ℚ :=
  (green_pixel_count img : ℚ) / (total_pixels img : ℚ)

/-- The verdict on a successfully decoded image:
`return green_percentage > 0.1`. -/
def classifyDecoded (img : Image) : Bool := decide (green_percentage img > 0.1)

/-- The split `header, encoded = image_data_url.split(",", 1)` on the character
list: split at the first comma; `none` models the `ValueError` Python
raises when the string holds no comma. -/
def splitOnceAux : List Char → Option (List Char × List Char)
  | [] => none
  | c :: rest =>
    if c = ',' then some ([], rest)
    else
      match splitOnceAux rest with
      | none => none
      | some (hd, tl) => some (c :: hd, tl)

/-- The split `image_data_url.split(",", 1)` unpacked into `header, encoded`. -/
def splitHeader (s : String) : Except String (String × String) :=
  match splitOnceAux s.data with
  | none => Except.error "not enough values to unpack"
  | some (hd, tl) => Except.ok (⟨hd⟩, ⟨tl⟩)

/-- The external decoding libraries the source calls, abstracted:
`b64decode` models `base64.b64decode` (which may raise, the `error`
case), and `imdecode` models `cv2.imdecode` followed by
`cv2.cvtColor(·, cv2.COLOR_BGR2HSV)` — `none` models `cv2.imdecode`
returning `None`, upon which `cv2.cvtColor` raises. -/
structure Codec where
  b64decode : String → Except String (List ℕ)
  imdecode : List ℕ → Option Image

/-- The classifier `analyze_image(image_data_url)`: the whole body runs inside
`try ... except Exception as e: print(...); return False`.  The result
is the returned verdict together with the list of printed error
diagnostics. -/
def analyze_image (c : Codec) (image_data_url : String) : Bool × List String :=
  match splitHeader image_data_url with
  | Except.error e => (false, ["Error analyzing image: " ++ e])
  | Except.ok (_, encoded) =>
    match c.b64decode encoded with
    | Except.error e => (false, ["Error analyzing image: " ++ e])
    | Except.ok data =>
      match c.imdecode data with
      | none => (false, ["Error analyzing image: cvtColor on None"])
      | some img => (classifyDecoded img, [])

/-- The decode pipeline of `analyze_image` up to (excluding) the pixel
arithmetic: `some img` when header split, base64 decode and image
decode all succeed, `none` on any of the three failure modes. -/
def decoded (c : Codec) (s : String) : Option Image :=
  match splitHeader s with
  | Except.error _ => none
  | Except.ok (_, encoded) =>
    match c.b64decode encoded with
    | Except.error _ => none
    | Except.ok data => c.imdecode data

/-! ## Distance evaluator -/

/-- The expression `distance_to_goal = ((robot_pos["x"] - GOAL_POSITION["x"])**2 +
(robot_pos["z"] - GOAL_POSITION["z"])**2)**0.5`, as a pure function of
the two positions. -/
noncomputable def distance_to_goal (p g : Pos) : ℝ :=
  Real.sqrt (((p.x : ℝ) - (g.x : ℝ)) ^ 2 + ((p.z : ℝ) - (g.z : ℝ)) ^ 2)

/-- The goal test `distance_to_goal < GOAL_THRESHOLD` of the loop, in
the executable squared form; `goalReached_iff` below proves it equal to
the comparison the source writes. -/
def goalReached (p : Pos) : Bool :=
  decide ((p.x - GOAL_POSITION.x) ^ 2 + (p.z - GOAL_POSITION.z) ^ 2 <
    GOAL_THRESHOLD ^ 2)

theorem goalReached_iff (p : Pos) :
    goalReached p = true ↔ distance_to_goal p GOAL_POSITION < 5 := by
  unfold goalReached distance_to_goal GOAL_POSITION GOAL_THRESHOLD
  rw [Real.sqrt_lt' (by norm_num : (0:ℝ) < 5)]
  simp only [decide_eq_true_eq]
  constructor
  · intro h
    push_cast
    exact_mod_cast h
  · intro h
    exact_mod_cast h

/-! ## Capture channel (`capture_image_from_server`) -/

/-- One websocket message after `json.loads`: its `type` tag, the
`image` data url and the `position` payload (the last two meaningful
only on a capture response; other message types carry other payloads,
which the source never reads). -/
structure WsMsg where
  type : String
  image : String
  pos : Pos
  deriving DecidableEq, Repr

/-- The receive loop of `capture_image_from_server`: the channel is a
list of (inter-arrival delay, message) pairs, the delay measured from
the start of the enclosing `await asyncio.wait_for(ws.recv(),
timeout=5.0)`.  A delay beyond 5 raises `asyncio.TimeoutError`
(`none`); a message whose tag is not `capture_image_response` is
dropped and the loop issues a fresh `recv` with a fresh 5-unit window;
an exhausted list models a channel that never delivers again, so the
pending `recv` times out. -/
def capture_image_from_server : List (ℚ × WsMsg) → Option WsMsg
  | [] => none
  | (d, m) :: rest =>
    if 5 < d then none
    else if m.type = "capture_image_response" then some m
    else capture_image_from_server rest

/-- Total time from the first `recv` until the first message tagged
`capture_image_response` arrives on the channel. -/
def timeToResponse : List (ℚ × WsMsg) → ℚ
  | [] => 0
  | (d, m) :: rest =>
    if m.type = "capture_image_response" then d
    else d + timeToResponse rest

/-! ## Navigation loop (`main`) -/

/-- The commands `main` posts to the simulator HTTP interface. -/
inductive Command where
  | captureTrigger : Command
  | setGoal : Pos → Command
  | moveRel : ℤ → ℤ → Command
  | move : Pos → Command
  | stop : Command
  deriving DecidableEq, Repr

/-- An observable event of one run: a posted command, an
`asyncio.sleep`, or a printed diagnostic. -/
inductive Event where
  | cmd : Command → Event
  | sleep : ℕ → Event
  | log : String → Event
  deriving DecidableEq, Repr

/-- The outcome of one `capture_image_from_server` call as the loop
sees it: a timeout (`None`), or a response carrying the image data url
and the robot position. -/
inductive CaptureResult where
  | timeout : CaptureResult
  | frame : String → Pos → CaptureResult
  deriving DecidableEq, Repr

/-- The posted command of an event, if it is one. -/
def Event.command : Event → Option Command
  | Event.cmd c => some c
  | Event.sleep _ => none
  | Event.log _ => none

/-- The commands among a list of events, in order. -/
def commandsOf (evs : List Event) : List Command := evs.filterMap Event.command

/-- Whether a command moves the robot (`/move_rel` or `/move`). -/
def Command.isMovement : Command → Bool
  | Command.moveRel _ _ => true
  | Command.move _ => true
  | _ => false

/-- Whether a command is the `/stop` post. -/
def Command.isStop : Command → Bool
  | Command.stop => true
  | _ => false

/-- One iteration of the `while True` loop in `main`, given the outcome
of its capture step: the events it emits, and whether it executed the
`break` (goal reached). -/
def cycle (c : Codec) (res : CaptureResult) : List Event × Bool :=
  match res with
  | CaptureResult.timeout =>
    ([Event.cmd Command.captureTrigger,
      Event.log "Timeout waiting for image response.",
      Event.log "Failed to get image. Retrying...",
      Event.sleep 1], false)
  | CaptureResult.frame image_data robot_pos =>
    if goalReached robot_pos then
      ([Event.cmd Command.captureTrigger,
        Event.log "Goal reached! Stopping.",
        Event.cmd Command.stop], true)
    else
      let is_obstacle_ahead := analyze_image c image_data
      if is_obstacle_ahead.1 then
        (Event.cmd Command.captureTrigger ::
          is_obstacle_ahead.2.map Event.log ++
          [Event.log "Obstacle detected! Turning and moving to clear...",
           Event.cmd (Command.moveRel 20 5),
           Event.sleep 2,
           Event.sleep 1], false)
      else
        (Event.cmd Command.captureTrigger ::
          is_obstacle_ahead.2.map Event.log ++
          [Event.log "Path clear. Moving forward a step...",
           Event.cmd (Command.moveRel 0 10),
           Event.sleep 1,
           Event.cmd (Command.move GOAL_POSITION),
           Event.sleep 1], false)

/-- The `while True` loop of `main`, run over a finite trace of capture
outcomes: the concatenated events of the executed cycles, and whether
the loop reached its `break`.  A `false` flag means the trace was
exhausted with the loop still running. -/
def run (c : Codec) : List CaptureResult → List Event × Bool
  | [] => ([], false)
  | r :: rs =>
    let step := cycle c r
    if step.2 then (step.1, true)
    else (step.1 ++ (run c rs).1, (run c rs).2)

/-- The function `main`: the start-up prints, the one unconditional `/goal` post,
then the control loop. -/
def main_run (c : Codec) (trace : List CaptureResult) : List Event × Bool :=
  ([Event.log "Autonomous Robot Controller started.",
    Event.log "Goal set to configured position.",
    Event.cmd (Command.setGoal GOAL_POSITION),
    Event.log "Goal position sent to simulator."] ++ (run c trace).1,
   (run c trace).2)

/-! ## Concrete fixtures used by witnesses -/

/-- A four-pixel image entirely of the obstacle green (hue 60, full
saturation and value). -/
def greenImage : Image := List.replicate 4 ⟨60, 255, 255⟩

/-- A four-pixel image entirely of pure blue (hue 120). -/
def blueImage : Image := List.replicate 4 ⟨120, 255, 255⟩

/-- A codec whose every decode step fails, for exercising the error
paths. -/
def failCodec : Codec :=
  ⟨fun _ => Except.error "Invalid base64-encoded string", fun _ => none⟩

/-- A codec decoding the one-byte payload `[1]` to the green image and
anything else to the blue image. -/
def testCodec : Codec :=
  ⟨fun s => Except.ok (s.data.map Char.toNat),
   fun d => if d = [103] then some greenImage else some blueImage⟩

/-- The mask predicate as the specification words it: hue in the green
band, saturation and value each strictly exceeding the 50/255 minimum. -/
def maskSpec (p : HSVPixel) : Bool :=
  decide (35 ≤ p.h ∧ p.h ≤ 85) && decide (50 < p.s) && decide (50 < p.v)

/-! ## Helper lemmas -/

theorem commandsOf_map_log (l : List String) :
    commandsOf (l.map Event.log) = [] := by
  induction l with
  | nil => rfl
  | cons a l ih => simp only [List.map_cons, commandsOf, List.filterMap_cons, Event.command]; exact ih

theorem commandsOf_append (l₁ l₂ : List Event) :
    commandsOf (l₁ ++ l₂) = commandsOf l₁ ++ commandsOf l₂ :=
  List.filterMap_append l₁ l₂ Event.command

theorem analyze_image_decode_ok (c : Codec) (s : String) (img : Image)
    (hok : decoded c s = some img) :
    analyze_image c s = (classifyDecoded img, []) := by
  unfold decoded at hok
  unfold analyze_image
  split at hok
  · cases hok
  · split at hok
    · cases hok
    · rw [hok]

theorem analyze_image_decode_failure (c : Codec) (s : String)
    (hfail : decoded c s = none) :
    ∃ msg : String, analyze_image c s = (false, [msg]) := by
  unfold decoded at hfail
  unfold analyze_image
  split at hfail
  · exact ⟨_, rfl⟩
  · split at hfail
    · exact ⟨_, rfl⟩
    · rw [hfail]
      exact ⟨_, rfl⟩

theorem classifyDecoded_iff (img : Image) :
    classifyDecoded img = true ↔ green_fraction img > 1 / 1000 := by
  unfold classifyDecoded green_percentage green_fraction
  rw [decide_eq_true_eq, show (0.1 : ℚ) = 1 / 10 by norm_num]
  constructor <;> intro h <;> linarith

theorem classifyDecoded_of_zero_pixels (img : Image)
    (h : total_pixels img = 0) : classifyDecoded img = false := by
  have hcount : green_pixel_count img = 0 :=
    Nat.le_zero.mp (h ▸ List.length_filter_le inRange img)
  unfold classifyDecoded green_percentage
  rw [hcount, h]
  norm_num

/-! ## Claims about the frame classifier and the distance evaluator -/

/-- C7: the distance evaluator is a pure function returning the planar
Euclidean distance; for `Position(0,0)` and the goal `(-35,-35)` it
returns `35·√2`, for `Position(-35,-35)` and the same goal it returns
`0`, and it is defined (and nonnegative) for all inputs. -/
theorem distance_evaluator_values :
    distance_to_goal ⟨0, 0⟩ GOAL_POSITION = 35 * Real.sqrt 2 ∧
    distance_to_goal ⟨-35, -35⟩ GOAL_POSITION = 0 ∧
    ∀ p g : Pos, 0 ≤ distance_to_goal p g := by
  refine ⟨?_, ?_, fun p g => Real.sqrt_nonneg _⟩
  · unfold distance_to_goal GOAL_POSITION
    norm_num
    rw [show ((2450 : ℝ)) = 35 ^ 2 * 2 by norm_num,
      Real.sqrt_mul (by positivity), Real.sqrt_sq (by norm_num)]
  · unfold distance_to_goal GOAL_POSITION
    norm_num

/-- C2: for every decodable image the verdict is `true` iff the green
pixel fraction exceeds `0.1% = 1/1000`; consequently it is `false` at
or below the threshold and monotone in the fraction, never flipping
back to `false` at a higher fraction. -/
theorem classifier_threshold_monotone (img : Image) :
    (classifyDecoded img = true ↔ green_fraction img > 1 / 1000) ∧
    (green_fraction img ≤ 1 / 1000 → classifyDecoded img = false) ∧
    (∀ img₂ : Image, green_fraction img ≤ green_fraction img₂ →
      classifyDecoded img = true → classifyDecoded img₂ = true) := by
  refine ⟨classifyDecoded_iff img, ?_, ?_⟩
  · intro hle
    cases hcb : classifyDecoded img with
    | false => rfl
    | true =>
      exact absurd ((classifyDecoded_iff img).mp hcb) (not_lt.mpr hle)
  · intro img₂ hmono h₁
    exact (classifyDecoded_iff img₂).mpr
      (lt_of_lt_of_le ((classifyDecoded_iff img).mp h₁) hmono)

/-- Witness for C2 at a concrete image: the all-blue image has green
fraction at most the threshold, and the classifier answers `false`. -/
theorem classifier_threshold_monotone_witness :
    green_fraction blueImage ≤ 1 / 1000 ∧ classifyDecoded blueImage = false := by
  have hfrac : green_fraction blueImage ≤ 1 / 1000 := by
    norm_num [green_fraction, green_pixel_count, total_pixels, blueImage,
      inRange, lower_green, upper_green, List.replicate, List.filter]
  exact ⟨hfrac, (classifier_threshold_monotone blueImage).2.1 hfrac⟩

/-- C8 counterexample: `cv2.inRange` is inclusive at the lower bounds,
so the pixel with hue 40 and saturation and value exactly 50 is
selected by the code mask although its saturation and value do not
strictly exceed the 50/255 minimum the claim describes; an image made
of that pixel is classified as an obstacle. -/
theorem mask_strict_boundary_counterexample :
    inRange ⟨40, 50, 50⟩ = true ∧ maskSpec ⟨40, 50, 50⟩ = false ∧
    classifyDecoded [⟨40, 50, 50⟩] = true := by
  refine ⟨by decide, by decide, ?_⟩
  norm_num [classifyDecoded, green_percentage, green_pixel_count,
    total_pixels, inRange, lower_green, upper_green, List.filter]

/-- C8 amended: the mask selects exactly the pixels whose hue lies in
the 35–85 band with saturation and value each at least 50 (inclusive,
and at most 255); an image entirely of the obstacle green hue at full
saturation and value yields verdict `true`, and an image entirely of a
hue outside the band (pure blue, hue 120) yields verdict `false` for
any saturation and value. -/
theorem mask_inclusive_bounds_amended :
    (∀ p : HSVPixel, inRange p = true ↔
      (35 ≤ p.h ∧ p.h ≤ 85) ∧ (50 ≤ p.s ∧ p.s ≤ 255) ∧
      (50 ≤ p.v ∧ p.v ≤ 255)) ∧
    (∀ img : Image, img ≠ [] → (∀ p ∈ img, p = ⟨60, 255, 255⟩) →
      classifyDecoded img = true) ∧
    (∀ img : Image, (∀ p ∈ img, p.h = 120) → classifyDecoded img = false) := by
  refine ⟨?_, ?_, ?_⟩
  · intro p
    unfold inRange lower_green upper_green
    simp [Bool.and_eq_true, decide_eq_true_eq, and_assoc]
  · intro img hne hall
    have hfilter : img.filter inRange = img :=
      List.filter_eq_self.mpr (fun p hp => by rw [hall p hp]; decide)
    have hlen : (0 : ℚ) < (img.length : ℚ) := by
      exact_mod_cast List.length_pos.mpr hne
    unfold classifyDecoded green_percentage green_pixel_count total_pixels
    rw [decide_eq_true_eq, hfilter, div_self (ne_of_gt hlen)]
    norm_num
  · intro img hall
    have hfilter : img.filter inRange = [] := by
      rw [List.filter_eq_nil_iff]
      intro p hp
      have h120 := hall p hp
      unfold inRange lower_green upper_green
      simp [h120]
    unfold classifyDecoded green_percentage green_pixel_count total_pixels
    rw [hfilter]
    norm_num

/-- Witness for C8 amended at concrete images: a one-pixel obstacle
green image is classified `true`, a one-pixel blue image with partial
saturation and value is classified `false`. -/
theorem mask_inclusive_bounds_amended_witness :
    classifyDecoded [⟨60, 255, 255⟩] = true ∧
    classifyDecoded [⟨120, 77, 200⟩] = false :=
  ⟨mask_inclusive_bounds_amended.2.1 [⟨60, 255, 255⟩] (by simp) (by simp),
   mask_inclusive_bounds_amended.2.2 [⟨120, 77, 200⟩] (by simp)⟩

/-- C5: whenever the decode pipeline fails (no comma in the data url,
base64 failure, or the image decoder yielding no image), the classifier
returns the verdict `false` (it catches the exception rather than
propagating it) and prints exactly one diagnostic naming the cause. -/
theorem decode_failure_fail_open (c : Codec) (s : String)
    (hfail : decoded c s = none) :
    (analyze_image c s).1 = false ∧ (analyze_image c s).2.length = 1 := by
  obtain ⟨msg, heq⟩ := analyze_image_decode_failure c s hfail
  rw [heq]
  exact ⟨rfl, rfl⟩

/-- Witness for C5: a payload without a comma fails the header split,
and the classifier answers `false` with one diagnostic. -/
theorem decode_failure_fail_open_witness :
    (analyze_image failCodec "nocomma").1 = false ∧
    (analyze_image failCodec "nocomma").2.length = 1 :=
  decode_failure_fail_open failCodec "nocomma" rfl

/-- C10: for every string input, `analyze_image` returns a boolean
verdict (it is a total function); the verdict can be `true` only when
the whole decode pipeline succeeded on a nonempty image, so every
internal failure — header split, base64 decode, image decode, or a
decoded zero-pixel image making the fraction degenerate — yields the
verdict `false`. -/
theorem analyze_image_total_fail_false (c : Codec) (s : String) :
    ((analyze_image c s).1 = true →
      ∃ img : Image, decoded c s = some img ∧ 0 < total_pixels img) ∧
    (decoded c s = none → (analyze_image c s).1 = false) ∧
    (∀ img : Image, decoded c s = some img → total_pixels img = 0 →
      (analyze_image c s).1 = false) := by
  refine ⟨?_, ?_, ?_⟩
  · intro h
    cases hdec : decoded c s with
    | none =>
      obtain ⟨msg, heq⟩ := analyze_image_decode_failure c s hdec
      rw [heq] at h
      cases h
    | some img =>
      rw [analyze_image_decode_ok c s img hdec] at h
      refine ⟨img, rfl, ?_⟩
      by_contra hz
      have h0 : total_pixels img = 0 := Nat.eq_zero_of_not_pos hz
      rw [classifyDecoded_of_zero_pixels img h0] at h
      cases h
  · intro hdec
    obtain ⟨msg, heq⟩ := analyze_image_decode_failure c s hdec
    rw [heq]
  · intro img hdec h0
    rw [analyze_image_decode_ok c s img hdec]
    exact classifyDecoded_of_zero_pixels img h0

/-- Witness for C10: the test codec classifies the payload `"d,g"` as
an obstacle, so the decode pipeline must have produced a nonempty
image on it. -/
theorem analyze_image_total_fail_false_witness :
    ∃ img : Image, decoded testCodec "d,g" = some img ∧ 0 < total_pixels img :=
  (analyze_image_total_fail_false testCodec "d,g").1 (by
    have h : analyze_image testCodec "d,g" = (classifyDecoded greenImage, []) := rfl
    rw [h]
    norm_num [classifyDecoded, green_percentage, green_pixel_count, total_pixels,
      greenImage, inRange, lower_green, upper_green, List.replicate, List.filter])

/-! ## Claims about the navigation loop -/

theorem commandsOf_cons_cmd (k : Command) (evs : List Event) :
    commandsOf (Event.cmd k :: evs) = k :: commandsOf evs := rfl

theorem commandsOf_cons_log (m : String) (evs : List Event) :
    commandsOf (Event.log m :: evs) = commandsOf evs := rfl

theorem commandsOf_cons_sleep (n : ℕ) (evs : List Event) :
    commandsOf (Event.sleep n :: evs) = commandsOf evs := rfl

/-- C1: in a RUNNING cycle whose capture succeeded with a position
strictly within the goal threshold 5, the loop issues exactly one Stop
command and breaks, independently of the frame content and of the
decoder (the frame is never classified), and the remaining trace
contributes no further events, so no further Move command is issued. -/
theorem goal_reached_single_stop (c : Codec) (img : String) (pos : Pos)
    (rest : List CaptureResult)
    (hd : distance_to_goal pos GOAL_POSITION < 5) :
    run c (CaptureResult.frame img pos :: rest) =
      ([Event.cmd Command.captureTrigger,
        Event.log "Goal reached! Stopping.",
        Event.cmd Command.stop], true) ∧
    (commandsOf (run c (CaptureResult.frame img pos :: rest)).1).count
      Command.stop = 1 ∧
    (commandsOf (run c (CaptureResult.frame img pos :: rest)).1).filter
      Command.isMovement = [] := by
  have hg : goalReached pos = true := (goalReached_iff pos).mpr hd
  have hcycle : cycle c (CaptureResult.frame img pos) =
      ([Event.cmd Command.captureTrigger,
        Event.log "Goal reached! Stopping.",
        Event.cmd Command.stop], true) := by
    simp [cycle, hg]
  have hrun : run c (CaptureResult.frame img pos :: rest) =
      ([Event.cmd Command.captureTrigger,
        Event.log "Goal reached! Stopping.",
        Event.cmd Command.stop], true) := by
    simp [run, hcycle]
  rw [hrun]
  exact ⟨rfl, rfl, rfl⟩

/-- Witness for C1: at position `(-35, -31)` the distance to the goal
is `4 < 5`, and the loop stops at once. -/
theorem goal_reached_single_stop_witness :
    run failCodec [CaptureResult.frame "x" ⟨-35, -31⟩] =
      ([Event.cmd Command.captureTrigger,
        Event.log "Goal reached! Stopping.",
        Event.cmd Command.stop], true) :=
  (goal_reached_single_stop failCodec "x" ⟨-35, -31⟩ []
    ((goalReached_iff ⟨-35, -31⟩).mp
      (by norm_num [goalReached, GOAL_POSITION, GOAL_THRESHOLD]))).1

/-- C3: in a RUNNING cycle whose position is at or beyond the goal
threshold, a `true` obstacle verdict makes the loop issue exactly the
avoidance command `MoveRelative(turn=20, distance=5)` with no
re-orientation command, while a `false` verdict makes it issue
`MoveRelative(turn=0, distance=10)` followed by the move-toward-goal
command in that same cycle. -/
theorem act_branch_sequencing (c : Codec) (img : String) (pos : Pos)
    (hd : 5 ≤ distance_to_goal pos GOAL_POSITION) :
    ((analyze_image c img).1 = true →
      cycle c (CaptureResult.frame img pos) =
        (Event.cmd Command.captureTrigger ::
          ((analyze_image c img).2.map Event.log ++
           [Event.log "Obstacle detected! Turning and moving to clear...",
            Event.cmd (Command.moveRel 20 5),
            Event.sleep 2,
            Event.sleep 1]), false) ∧
      commandsOf (cycle c (CaptureResult.frame img pos)).1 =
        [Command.captureTrigger, Command.moveRel 20 5]) ∧
    ((analyze_image c img).1 = false →
      cycle c (CaptureResult.frame img pos) =
        (Event.cmd Command.captureTrigger ::
          ((analyze_image c img).2.map Event.log ++
           [Event.log "Path clear. Moving forward a step...",
            Event.cmd (Command.moveRel 0 10),
            Event.sleep 1,
            Event.cmd (Command.move GOAL_POSITION),
            Event.sleep 1]), false) ∧
      commandsOf (cycle c (CaptureResult.frame img pos)).1 =
        [Command.captureTrigger, Command.moveRel 0 10,
         Command.move GOAL_POSITION]) := by
  have hg : goalReached pos = false := by
    cases h : goalReached pos with
    | false => rfl
    | true => exact absurd ((goalReached_iff pos).mp h) (not_lt.mpr hd)
  constructor
  · intro hv
    have hcycle : cycle c (CaptureResult.frame img pos) =
        (Event.cmd Command.captureTrigger ::
          ((analyze_image c img).2.map Event.log ++
           [Event.log "Obstacle detected! Turning and moving to clear...",
            Event.cmd (Command.moveRel 20 5),
            Event.sleep 2,
            Event.sleep 1]), false) := by
      simp [cycle, hg, hv]
    refine ⟨hcycle, ?_⟩
    rw [hcycle, commandsOf_cons_cmd, commandsOf_append, commandsOf_map_log]
    rfl
  · intro hv
    have hcycle : cycle c (CaptureResult.frame img pos) =
        (Event.cmd Command.captureTrigger ::
          ((analyze_image c img).2.map Event.log ++
           [Event.log "Path clear. Moving forward a step...",
            Event.cmd (Command.moveRel 0 10),
            Event.sleep 1,
            Event.cmd (Command.move GOAL_POSITION),
            Event.sleep 1]), false) := by
      simp [cycle, hg, hv]
    refine ⟨hcycle, ?_⟩
    rw [hcycle, commandsOf_cons_cmd, commandsOf_append, commandsOf_map_log]
    rfl

/-- Witness for C3: at position `(0, 0)` the distance to the goal is
`35·√2 ≥ 5`; with the test codec the payload `"d,g"` decodes to the
green image (verdict `true`) and `"d,b"` to the blue image (verdict
`false`), producing the two command sequences. -/
theorem act_branch_sequencing_witness :
    commandsOf (cycle testCodec (CaptureResult.frame "d,g" ⟨0, 0⟩)).1 =
      [Command.captureTrigger, Command.moveRel 20 5] ∧
    commandsOf (cycle testCodec (CaptureResult.frame "d,b" ⟨0, 0⟩)).1 =
      [Command.captureTrigger, Command.moveRel 0 10,
       Command.move GOAL_POSITION] := by
  have hdist : 5 ≤ distance_to_goal ⟨0, 0⟩ GOAL_POSITION :=
    le_of_not_lt (fun hlt => by
      have := (goalReached_iff ⟨0, 0⟩).mpr hlt
      norm_num [goalReached, GOAL_POSITION, GOAL_THRESHOLD] at this)
  have hgreen : (analyze_image testCodec "d,g").1 = true := by
    have h : analyze_image testCodec "d,g" = (classifyDecoded greenImage, []) := rfl
    rw [h]
    norm_num [classifyDecoded, green_percentage, green_pixel_count, total_pixels,
      greenImage, inRange, lower_green, upper_green, List.replicate, List.filter]
  have hblue : (analyze_image testCodec "d,b").1 = false := by
    have h : analyze_image testCodec "d,b" = (classifyDecoded blueImage, []) := rfl
    rw [h]
    norm_num [classifyDecoded, green_percentage, green_pixel_count, total_pixels,
      blueImage, inRange, lower_green, upper_green, List.replicate, List.filter]
  exact ⟨((act_branch_sequencing testCodec "d,g" ⟨0, 0⟩ hdist).1 hgreen).2,
         ((act_branch_sequencing testCodec "d,b" ⟨0, 0⟩ hdist).2 hblue).2⟩

/-- C6: on a capture timeout the loop prints diagnostics, sleeps the
fixed one-unit retry interval and re-enters the capture step without
issuing any movement or stop command; for every number of consecutive
timeouts the loop is still running, has posted only capture triggers,
and each retry cycle is the same fixed block (no backoff growth, no
retry limit). -/
theorem capture_timeout_retries_forever (c : Codec) (n : ℕ) :
    run c (List.replicate n CaptureResult.timeout) =
      ((List.replicate n
        [Event.cmd Command.captureTrigger,
         Event.log "Timeout waiting for image response.",
         Event.log "Failed to get image. Retrying...",
         Event.sleep 1]).flatten, false) ∧
    commandsOf (run c (List.replicate n CaptureResult.timeout)).1 =
      List.replicate n Command.captureTrigger ∧
    (commandsOf (run c (List.replicate n CaptureResult.timeout)).1).filter
      (fun k => k.isMovement || k.isStop) = [] := by
  have hblock : ∀ m : ℕ,
      run c (List.replicate m CaptureResult.timeout) =
        ((List.replicate m
          [Event.cmd Command.captureTrigger,
           Event.log "Timeout waiting for image response.",
           Event.log "Failed to get image. Retrying...",
           Event.sleep 1]).flatten, false) := by
    intro m
    induction m with
    | zero => rfl
    | succ m ih =>
      rw [List.replicate_succ, List.replicate_succ, List.flatten_cons]
      simp [run, cycle, ih]
  have hcmds : ∀ m : ℕ,
      commandsOf ((List.replicate m
        [Event.cmd Command.captureTrigger,
         Event.log "Timeout waiting for image response.",
         Event.log "Failed to get image. Retrying...",
         Event.sleep 1]).flatten) = List.replicate m Command.captureTrigger := by
    intro m
    induction m with
    | zero => rfl
    | succ m ih =>
      rw [List.replicate_succ, List.flatten_cons, commandsOf_append, ih,
        List.replicate_succ]
      rfl
  have hfilter : ∀ m : ℕ,
      (List.replicate m Command.captureTrigger).filter
        (fun k => k.isMovement || k.isStop) = [] := by
    intro m
    induction m with
    | zero => rfl
    | succ m ih =>
      rw [List.replicate_succ, List.filter_cons, if_neg (by decide)]
      exact ih
  refine ⟨hblock n, ?_, ?_⟩
  · rw [hblock n]
    exact hcmds n
  · rw [hblock n, hcmds n]
    exact hfilter n

theorem setGoal_not_in_cycle (c : Codec) (r : CaptureResult) (g : Pos) :
    Command.setGoal g ∉ commandsOf (cycle c r).1 := by
  cases r with
  | timeout =>
    simp [cycle, commandsOf, Event.command]
  | frame img pos =>
    by_cases hg : goalReached pos = true
    · simp [cycle, hg, commandsOf, Event.command]
    · rw [Bool.not_eq_true] at hg
      by_cases hv : (analyze_image c img).1 = true
      · have hc : commandsOf (cycle c (CaptureResult.frame img pos)).1 =
            [Command.captureTrigger, Command.moveRel 20 5] := by
          have hcycle : cycle c (CaptureResult.frame img pos) =
              (Event.cmd Command.captureTrigger ::
                ((analyze_image c img).2.map Event.log ++
                 [Event.log "Obstacle detected! Turning and moving to clear...",
                  Event.cmd (Command.moveRel 20 5),
                  Event.sleep 2,
                  Event.sleep 1]), false) := by
            simp [cycle, hg, hv]
          rw [hcycle, commandsOf_cons_cmd, commandsOf_append, commandsOf_map_log]
          rfl
        rw [hc]
        simp
      · rw [Bool.not_eq_true] at hv
        have hc : commandsOf (cycle c (CaptureResult.frame img pos)).1 =
            [Command.captureTrigger, Command.moveRel 0 10,
             Command.move GOAL_POSITION] := by
          have hcycle : cycle c (CaptureResult.frame img pos) =
              (Event.cmd Command.captureTrigger ::
                ((analyze_image c img).2.map Event.log ++
                 [Event.log "Path clear. Moving forward a step...",
                  Event.cmd (Command.moveRel 0 10),
                  Event.sleep 1,
                  Event.cmd (Command.move GOAL_POSITION),
                  Event.sleep 1]), false) := by
            simp [cycle, hg, hv]
          rw [hcycle, commandsOf_cons_cmd, commandsOf_append, commandsOf_map_log]
          rfl
        rw [hc]
        simp

theorem setGoal_not_in_run (c : Codec) (trace : List CaptureResult) (g : Pos) :
    Command.setGoal g ∉ commandsOf (run c trace).1 := by
  induction trace with
  | nil => simp [run, commandsOf]
  | cons r rs ih =>
    simp only [run]
    split
    · exact setGoal_not_in_cycle c r g
    · intro hmem
      rw [commandsOf_append, List.mem_append] at hmem
      rcases hmem with h | h
      · exact setGoal_not_in_cycle c r g h
      · exact ih h

/-- C9: on every run the loop posts `SetGoal(GOAL_POSITION)` exactly
once, unconditionally; it is the head of the command sequence, so no
other command — in particular no capture trigger — precedes it, and no
later cycle posts a goal command again. -/
theorem setgoal_once_before_all (c : Codec) (trace : List CaptureResult) :
    commandsOf (main_run c trace).1 =
      Command.setGoal GOAL_POSITION :: commandsOf (run c trace).1 ∧
    (commandsOf (main_run c trace).1).count (Command.setGoal GOAL_POSITION) = 1 ∧
    ∀ g : Pos, Command.setGoal g ∉ commandsOf (run c trace).1 := by
  have h1 : commandsOf (main_run c trace).1 =
      Command.setGoal GOAL_POSITION :: commandsOf (run c trace).1 := by
    unfold main_run
    rw [commandsOf_append]
    rfl
  refine ⟨h1, ?_, fun g => setGoal_not_in_run c trace g⟩
  rw [h1, List.count_cons_self,
    List.count_eq_zero.mpr (setGoal_not_in_run c trace GOAL_POSITION)]

/-- Witness for C9 on a concrete one-timeout run. -/
theorem setgoal_once_before_all_witness :
    commandsOf (main_run failCodec [CaptureResult.timeout]).1 =
      Command.setGoal GOAL_POSITION ::
        commandsOf (run failCodec [CaptureResult.timeout]).1 ∧
    (commandsOf (main_run failCodec [CaptureResult.timeout]).1).count
      (Command.setGoal GOAL_POSITION) = 1 ∧
    ∀ g : Pos,
      Command.setGoal g ∉ commandsOf (run failCodec [CaptureResult.timeout]).1 :=
  setgoal_once_before_all failCodec [CaptureResult.timeout]

/-! ## Claims about the capture channel -/

/-- A websocket message of a different type, used as the ignored
message in the counterexample. -/
def otherMsg : WsMsg := ⟨"telemetry", "", ⟨0, 0⟩⟩

/-- A matching capture response message. -/
def respMsg : WsMsg := ⟨"capture_image_response", "header,payload", ⟨0, 0⟩⟩

/-- C4 counterexample: the 5-unit window applies to each `recv`
separately, not to the wait overall.  With an ignored message after 3
units and the matching response 3 units later, the response arrives 6
units after the wait began — outside a 5-unit overall window — yet the
channel returns it instead of reporting a timeout. -/
theorem capture_overall_window_counterexample :
    capture_image_from_server [(3, otherMsg), (3, respMsg)] = some respMsg ∧
    timeToResponse [(3, otherMsg), (3, respMsg)] = 6 ∧
    ¬ timeToResponse [(3, otherMsg), (3, respMsg)] ≤ 5 := by
  refine ⟨rfl, ?_, ?_⟩ <;>
    norm_num [timeToResponse, otherMsg, respMsg,
      (by decide : ¬ ("telemetry" = "capture_image_response"))]

theorem capture_find_of_all_le (msgs : List (ℚ × WsMsg)) :
    (∀ dm ∈ msgs, dm.1 ≤ 5) →
    capture_image_from_server msgs =
      (msgs.map Prod.snd).find?
        (fun m => decide (m.type = "capture_image_response")) := by
  induction msgs with
  | nil => intro _; rfl
  | cons dm rest ih =>
    intro hall
    obtain ⟨d, m⟩ := dm
    have hd : ¬ (5 < d) := not_lt.mpr (hall (d, m) (List.mem_cons_self _ _))
    unfold capture_image_from_server
    rw [if_neg hd, List.map_cons]
    by_cases hm : m.type = "capture_image_response"
    · rw [if_pos hm, List.find?_cons_of_pos _ (by simpa using hm)]
    · rw [if_neg hm, List.find?_cons_of_neg _ (by simpa using hm)]
      exact ih (fun x hx => hall x (List.mem_cons_of_mem _ hx))

/-- C4 amended: the Capture Channel applies the 5-unit bound to each
received message separately — the window restarts after every ignored
message of a different type (which is dropped, not buffered), so as
long as every inter-arrival gap is within 5 units the channel returns
the first message tagged `capture_image_response`; and whenever the
next message takes more than 5 units it reports a timeout to the
caller, returning no frame. -/
theorem capture_per_message_window (msgs : List (ℚ × WsMsg))
    (hall : ∀ dm ∈ msgs, dm.1 ≤ 5) :
    capture_image_from_server msgs =
      (msgs.map Prod.snd).find?
        (fun m => decide (m.type = "capture_image_response")) ∧
    ∀ (d : ℚ) (m : WsMsg) (rest : List (ℚ × WsMsg)),
      5 < d → capture_image_from_server ((d, m) :: rest) = none := by
  refine ⟨capture_find_of_all_le msgs hall, ?_⟩
  intro d m rest hd
  unfold capture_image_from_server
  rw [if_pos hd]

/-- Witness for C4 amended at a concrete trace with all gaps within
the window. -/
theorem capture_per_message_window_witness :
    capture_image_from_server [(3, otherMsg), (3, respMsg)] =
      ([(3, otherMsg), (3, respMsg)].map Prod.snd).find?
        (fun m => decide (m.type = "capture_image_response")) ∧
    ∀ (d : ℚ) (m : WsMsg) (rest : List (ℚ × WsMsg)),
      5 < d → capture_image_from_server ((d, m) :: rest) = none :=
  capture_per_message_window [(3, otherMsg), (3, respMsg)] (by
    intro dm hdm
    simp only [List.mem_cons, List.not_mem_nil, or_false] at hdm
    rcases hdm with rfl | rfl <;> norm_num)

end RobotController
